import Mathlib

/-!
Shallow embedding of the core of `codesnap` (`src/main.go`), a tool that
discovers configured files/folders, classifies each file as text, empty,
binary or unreadable, and concatenates textual content into one report,
or alternatively renders an ASCII tree of the hierarchy.

Bytes are modelled as `Nat` (values < 256 in practice), byte strings as
`List Nat`.  File-system and OS effects (`os.Open`, `file.Stat`,
`file.Read`, `os.ReadFile`) are modelled by explicit success flags and the
file's byte content in `FileData`.  Console printing and log output
(`fmt.Printf`, `saveToOutput`) are side channels that do not affect the
returned values and are not modelled.
-/

namespace CodeSnap

/-- Bytes of an ASCII string literal (all format literals in the source are
ASCII, where `Char.toNat` agrees with the UTF-8 encoding). -/
def strBytes (s : String) : List Nat := s.data.map Char.toNat

/-- Decimal rendering of a counter, as `fmt.Sprintf("%d", n)` produces. -/
def natBytes (n : Nat) : List Nat := (Nat.toDigits 10 n).map Char.toNat

/-- Is `c` a UTF-8 continuation byte (`0x80..0xBF`)? -/
def cont (c : Nat) : Bool := 0x80 ≤ c && c ≤ 0xBF

/-- Lower bound for the 2nd byte of a 3-byte sequence (Go `utf8.acceptRanges`). -/
def lo3 (b : Nat) : Nat := if b == 0xE0 then 0xA0 else 0x80

/-- Upper bound for the 2nd byte of a 3-byte sequence (Go `utf8.acceptRanges`). -/
def hi3 (b : Nat) : Nat := if b == 0xED then 0x9F else 0xBF

/-- Lower bound for the 2nd byte of a 4-byte sequence (Go `utf8.acceptRanges`). -/
def lo4 (b : Nat) : Nat := if b == 0xF0 then 0x90 else 0x80

/-- Upper bound for the 2nd byte of a 4-byte sequence (Go `utf8.acceptRanges`). -/
def hi4 (b : Nat) : Nat := if b == 0xF4 then 0x8F else 0xBF

/-- Decoder state while scanning a byte stream left to right: how many
continuation bytes the current character still needs, and the admissible
range for the next byte (Go's `acceptRanges` restricts the byte right after
the lead; later continuations are plain `0x80..0xBF`). -/
structure Utf8State where
  need : Nat
  lo : Nat
  hi : Nat
deriving DecidableEq, Repr

/-- One byte of Go's `unicode/utf8.Valid` scan: inside a character the byte
must fall in the admissible range; at a character boundary the byte must be
ASCII or a legal lead byte (`0xC2..0xDF`, `0xE0..0xEF`, `0xF0..0xF4`, with
the `acceptRanges` bounds for the following byte); anything else is
invalid (`none`). -/
def utf8Step (s : Utf8State) (b : Nat) : Option Utf8State :=
  if s.need > 0 then
    if s.lo ≤ b && b ≤ s.hi then some ⟨s.need - 1, 0x80, 0xBF⟩ else none
  else if b ≤ 0x7F then some ⟨0, 0x80, 0xBF⟩
  else if 0xC2 ≤ b && b ≤ 0xDF then some ⟨1, 0x80, 0xBF⟩
  else if 0xE0 ≤ b && b ≤ 0xEF then some ⟨2, lo3 b, hi3 b⟩
  else if 0xF0 ≤ b && b ≤ 0xF4 then some ⟨3, lo4 b, hi4 b⟩
  else none

/-- Go's `unicode/utf8.Valid` over a byte list: the whole list decodes as a
sequence of complete, minimally-encoded UTF-8 characters (surrogates and
overlong encodings rejected via the `acceptRanges` bounds), with no
incomplete character at the end. -/
def utf8Valid (l : List Nat) : Bool :=
  match l.foldl (fun st b =>
    match st with
    | none => none
    | some s => utf8Step s b) (some ⟨0, 0x80, 0xBF⟩) with
  | some s => s.need == 0
  | none => false

/-- `bytes.Contains(buf, []byte{0})`: does the buffer hold a NUL byte? -/
def containsNul (l : List Nat) : Bool := l.any (fun b => b == 0)

/-- One file as the OS presents it to `validateFile`: the success of each
OS call (`os.Open`, `file.Stat`, the 8KB `file.Read`, the full
`os.ReadFile`) and the file's byte content.  A successful 8KB read returns
the first `min(size, 8192)` bytes. -/
structure FileData where
  openOk : Bool
  statOk : Bool
  readOk : Bool
  fullReadOk : Bool
  bytes : List Nat
deriving DecidableEq, Repr

/-- `validateFile` (main.go:73-119).  Go returns `(isValid, content, err)`;
every failing branch returns `err ≠ nil` with `isValid = false`, and every
succeeding branch returns `err = nil` with `isValid = true`, so the result
is modelled as `Except errMsg content`.  A zero-size file succeeds with
empty content before any read happens. -/
def validateFile (f : FileData) : Except String (List Nat) :=
  if !f.openOk then .error "cannot open file"
  else if !f.statOk then .error "cannot stat file"
  else if f.bytes.length == 0 then .ok []
  else if !f.readOk then .error "error reading file"
  else
    let buf := f.bytes.take 8192
    if containsNul buf then .error "file appears to be binary (contains null bytes)"
    else if !(utf8Valid buf) then .error "file contains invalid UTF-8 characters"
    else if !f.fullReadOk then .error "error reading full file content"
    else .ok f.bytes

/-- A discovered candidate: its slash-normalized path relative to the
configuration directory (as a byte string) and the file behind it. -/
structure Candidate where
  relPath : List Nat
  file : FileData
deriving DecidableEq, Repr

/-- `FileResult` (main.go:62-70), minus the raw `err`/`path` fields that
never reach the rendered report. -/
structure FileResult where
  relPath : List Nat
  content : List Nat
  isEmpty : Bool
  isValid : Bool
  skipped : Bool
deriving DecidableEq, Repr

/-- The worker body (main.go:320-344): classify one candidate into a
`FileResult`.  An error from `validateFile` marks the result skipped;
otherwise the result is valid, and empty when `!isValid || len(content)==0`
(on the success path `isValid` is always true). -/
def classifyCandidate (c : Candidate) : FileResult :=
  match validateFile c.file with
  | .error _ =>
      { relPath := c.relPath, content := [], isEmpty := false,
        isValid := false, skipped := true }
  | .ok content =>
      { relPath := c.relPath, content := content,
        isEmpty := content.length == 0,
        isValid := true, skipped := false }

/-- The three atomic counters (main.go:241-245). -/
structure Stats where
  processed : Nat
  empty : Nat
  skipped : Nat
deriving DecidableEq, Repr

/-- The counter updates one `FileResult` causes (main.go:330-344):
`skipped++` on error, else `processed++` and `empty++` when the result is
empty. -/
def addStats (s : Stats) (r : FileResult) : Stats :=
  if r.skipped then { s with skipped := s.skipped + 1 }
  else
    { s with
      processed := s.processed + 1,
      empty := if !r.isValid || r.content.length == 0 then s.empty + 1 else s.empty }

/-- Final counter values after all workers drain: atomic increments commute,
so the total is a fold over the results in any completion order. -/
def totalStats (rs : List FileResult) : Stats := rs.foldl addStats ⟨0, 0, 0⟩

/-- `strings.Repeat("=", 50)`. -/
def eqBar : List Nat := List.replicate 50 0x3D

/-- `fmt.Sprintf` restricted to the `%s`/`%d` verbs the source uses: scan the
format bytes, substituting each verb with the next argument (`%d` arguments
are passed pre-rendered with `natBytes`). -/
def subst : List Nat → List (List Nat) → List Nat
  | [], _ => []
  | 0x25 :: 0x73 :: rest, a :: as => a ++ subst rest as
  | 0x25 :: 0x64 :: rest, a :: as => a ++ subst rest as
  | c :: rest, as => c :: subst rest as

/-- The body contribution of one `FileResult` (main.go:379-391): skipped
results are passed over, empty results get an `(empty)` header-only section,
text results a header plus content. -/
def renderResult (r : FileResult) : List Nat :=
  if r.skipped then []
  else if r.isEmpty then
    subst (strBytes "\n\n%s\nFile: %s (empty)\n%s") [eqBar, r.relPath, eqBar]
  else
    subst (strBytes "\n\n%s\nFile: %s\n%s\n\n%s") [eqBar, r.relPath, eqBar, r.content]

/-- The summary block (main.go:398-406). -/
def summaryBytes (s : Stats) : List Nat :=
  subst (strBytes "\n\n%s\nSummary:\n- Files processed: %d\n- Empty files: %d\n- Files skipped: %d\n%s")
    [eqBar, natBytes s.processed, natBytes s.empty, natBytes s.skipped, eqBar]

/-- `collectContent` from the point where the candidate list is fixed
(main.go:309-413).  The worker pool classifies every candidate exactly once
and appends each `FileResult` to `results` under `resultsMutex` in the order
workers finish; that completion order is an arbitrary permutation of the
candidate list and is taken here as the input `completion`.  After the pool
drains, the report body is built by concatenating the render of every result
in that stored order, the summary from the final counters is appended, and
the run fails iff `processed == 0`. -/
def collectContent (completion : List Candidate) : Except String (List Nat) :=
  let results := completion.map classifyCandidate
  let stats := totalStats results
  let body := (results.map renderResult).flatten
  if stats.processed == 0 then .error "no valid files were processed"
  else .ok (body ++ summaryBytes stats)

/-- One entry of a folder glob (`doublestar.FilepathGlob` output,
main.go:286-295): the candidate it would become, whether `os.Stat`
succeeded, whether it is a directory, and the outcome of
`shouldIncludeFile` on it. -/
structure RawEntry where
  cand : Candidate
  statOk : Bool
  isDir : Bool
  included : Bool
deriving DecidableEq, Repr

/-- Candidate selection within one existing folder (main.go:286-295): keep
entries whose stat succeeds, that are not directories and that pass the
ignore filter. -/
def discoverFolder (es : List RawEntry) : List Candidate :=
  (es.filter (fun e => e.statOk && !e.isDir && e.included)).map (·.cand)

/-- The candidate list `filePaths` (main.go:263-304): folders in
configuration order (a missing folder or a glob error contributes nothing
and the run continues), then the individual file references that pass the
ignore filter. -/
def buildCandidates (folders : List (Option (List RawEntry)))
    (files : List RawEntry) : List Candidate :=
  (folders.map (fun f => match f with
    | none => []
    | some es => discoverFolder es)).flatten
  ++ (files.filter (·.included)).map (·.cand)

/-- Result of one `doublestar.Match(pattern, relPath)` call: the boolean
match outcome and whether the call reported `ErrBadPattern`. -/
structure MatchOutcome where
  matched : Bool
  errored : Bool
deriving DecidableEq, Repr

/-- The ignore loop of `shouldIncludeFile` (main.go:211-219), parametrised
by the outcome `m pattern relPath` of the external `doublestar.Match`:
return `false` at the first pattern that matches without error, `true` when
the list is exhausted. -/
def shouldIncludeLoop (m : String → String → MatchOutcome) (relPath : String) :
    List String → Bool
  | [] => true
  | pat :: rest =>
    let r := m pat relPath
    if !r.errored && r.matched then false
    else shouldIncludeLoop m relPath rest

/-- `shouldIncludeFile` (main.go:202-220): a failed `filepath.Rel`
(modelled by `relOk = false`) includes the path unconditionally; otherwise
the ignore patterns are scanned.  `filepath.ToSlash` is the identity on the
slash-normalized strings used here. -/
def shouldIncludeFile (m : String → String → MatchOutcome) (relOk : Bool)
    (relPath : String) (ignore : List String) : Bool :=
  if !relOk then true
  else shouldIncludeLoop m relPath ignore

/-- An existing, readable file-system subtree as `printTree` walks it:
every node that is present can be stat'ed and, for directories, read with
`os.ReadDir`.  A path whose root stat fails is modelled at the
`generateFolderStructure` level as a missing folder. -/
inductive FsTree where
  | file (name : String)
  | dir (name : String) (children : List FsTree)

/-- `filepath.Base` of a node: its own name. -/
def FsTree.name : FsTree → String
  | .file n => n
  | .dir n _ => n

/-- `filepath.Join(path, entry.Name())` on slash paths. -/
def joinPath (p n : String) : String := p ++ "/" ++ n

/-- What one `printTree` call adds to the output buffer and to the
`dirs`/`files` stats. -/
structure TreeOut where
  lines : List String
  dirs : Nat
  files : Nat
deriving DecidableEq, Repr

theorem sizeOf_filter_le {α : Type} [SizeOf α] (p : α → Bool) (l : List α) :
    sizeOf (l.filter p) ≤ sizeOf l := by
  induction l with
  | nil => simp
  | cons a t ih =>
    simp only [List.filter]
    cases p a <;> simp <;> omega

mutual

/-- `printTree` (main.go:436-488): prune when a positive depth limit is
exceeded, otherwise emit this node's connector-drawn line (directories
suffixed `/`, counted in `dirs`; files in `files`) and, for a directory,
filter its entries through `shouldIncludeFile` and recurse on each with the
child prefix, flagging the last filtered entry. -/
def printTree (maxD : Nat) (inc : String → Bool) (path : String) (t : FsTree)
    (pref : String) (isLast : Bool) (depth : Nat) : TreeOut :=
  if maxD > 0 && depth > maxD then ⟨[], 0, 0⟩
  else
    let connector := if isLast then pref ++ "└── " else pref ++ "├── "
    match t with
    | .file name => ⟨[connector ++ name], 0, 1⟩
    | .dir name children =>
      let nextPref := if isLast then pref ++ "    " else pref ++ "│   "
      let filtered := children.filter (fun c => inc (joinPath path c.name))
      let rest := printChildren maxD inc path filtered nextPref (depth + 1)
      ⟨(connector ++ name ++ "/") :: rest.lines, rest.dirs + 1, rest.files⟩
termination_by sizeOf t
decreasing_by
  simp_wf
  rename_i cs
  have h := sizeOf_filter_le (fun c => inc (joinPath path c.name)) cs
  omega

/-- The loop over a directory's filtered entries (main.go:473-485):
`isLastEntry` holds exactly for the final element. -/
def printChildren (maxD : Nat) (inc : String → Bool) (path : String)
    (cs : List FsTree) (pref : String) (depth : Nat) : TreeOut :=
  match cs with
  | [] => ⟨[], 0, 0⟩
  | [c] => printTree maxD inc (joinPath path c.name) c pref true depth
  | c :: cs' =>
    let o1 := printTree maxD inc (joinPath path c.name) c pref false depth
    let o2 := printChildren maxD inc path cs' pref depth
    ⟨o1.lines ++ o2.lines, o1.dirs + o2.dirs, o1.files + o2.files⟩
termination_by sizeOf cs
decreasing_by all_goals (simp_wf; try omega)

end

/-- `generateFolderStructure` (main.go:427-509) over resolved folders, each
either missing (`none`: the root `os.Stat` inside `printTree` fails) or an
existing subtree.  Folders are walked in configuration order with
`isLast = (i == len-1)`; the first missing folder aborts the whole run with
an error.  After all folders, the run also fails when nothing at all was
rendered. -/
def renderFolders (maxD : Nat) (inc : String → Bool) :
    List (String × Option FsTree) → Bool → Except String TreeOut
  | [], _ => .ok ⟨[], 0, 0⟩
  | [(ref, t)], isLast =>
    match t with
    | none => .error ("error processing folder " ++ ref)
    | some tr =>
      let o := printTree maxD inc ref tr "" isLast 0
      .ok ⟨("Folder: " ++ ref) :: o.lines ++ [""], o.dirs, o.files⟩
  | (ref, t) :: rest, isLast =>
    match t with
    | none => .error ("error processing folder " ++ ref)
    | some tr =>
      let o := printTree maxD inc ref tr "" false 0
      match renderFolders maxD inc rest isLast with
      | .error e => .error e
      | .ok o2 =>
        .ok ⟨(("Folder: " ++ ref) :: o.lines ++ [""]) ++ o2.lines,
             o.dirs + o2.dirs, o.files + o2.files⟩

/-- `generateFolderStructure` proper: render every folder (the last folder
gets `isLast = true`), then fail when zero directories and zero files were
rendered, else return the buffer lines plus the structure summary. -/
def generateFolderStructure (maxD : Nat) (inc : String → Bool)
    (folders : List (String × Option FsTree)) : Except String (List String) :=
  match renderFolders maxD inc folders true with
  | .error e => .error e
  | .ok o =>
    if o.dirs == 0 && o.files == 0 then .error "no valid folders or files were found"
    else .ok (o.lines ++ ["", "Structure Summary:",
      "- Directories: " ++ toString o.dirs, "- Files: " ++ toString o.files])

/-- Specification-side companion of the depth limit: the subtree of `t`
whose descendants lie at relative depth at most `k` below the root (the
spec's "renders every node at depth at most D", re-rooted at the current
node).  Compared against `printTree` with an unlimited walk. -/
def truncAt : Nat → FsTree → FsTree
  | _, .file n => .file n
  | 0, .dir n _ => .dir n []
  | k + 1, .dir n cs => .dir n (cs.map (truncAt k))

/-- A tiny readable text file `a.txt` holding the byte `A`. -/
def candA : Candidate := ⟨strBytes "a.txt", ⟨true, true, true, true, strBytes "A"⟩⟩

/-- A tiny readable text file `b.txt` holding the byte `B`. -/
def candB : Candidate := ⟨strBytes "b.txt", ⟨true, true, true, true, strBytes "B"⟩⟩

/-- A readable zero-byte file `empty.txt`. -/
def candEmpty : Candidate := ⟨strBytes "empty.txt", ⟨true, true, true, true, []⟩⟩

/-- A readable file whose first bytes are `[0, 1]` (the spec's `b.bin`). -/
def candNul : Candidate := ⟨strBytes "b.bin", ⟨true, true, true, true, [0, 1]⟩⟩

/-- A readable file of 8193 bytes: 8191 ASCII `a`s followed by the two-byte
UTF-8 encoding `C3 A9` of `é`, which straddles the 8192-byte prefix
boundary. -/
def candBig : Candidate :=
  ⟨strBytes "big.txt", ⟨true, true, true, true, List.replicate 8191 0x61 ++ [0xC3, 0xA9]⟩⟩

/-- The spec's §8 example hierarchy `src/a/b/c.txt` for tree rendering. -/
def exTree : FsTree := .dir "src" [.dir "a" [.dir "b" [.file "c.txt"]]]

/-- Does `validateFile` classify this candidate's file as a failure
(unreadable, binary, or invalid encoding)? -/
def validateErred (c : Candidate) : Bool :=
  match validateFile c.file with
  | .error _ => true
  | .ok _ => false

theorem addStats_processed_skipped (s : Stats) (r : FileResult) :
    (addStats s r).processed + (addStats s r).skipped
      = (s.processed + s.skipped) + 1 := by
  unfold addStats
  split <;> simp <;> omega

theorem foldl_addStats_sum (rs : List FileResult) (s : Stats) :
    (rs.foldl addStats s).processed + (rs.foldl addStats s).skipped
      = (s.processed + s.skipped) + rs.length := by
  induction rs generalizing s with
  | nil => simp
  | cons r tl ih =>
    simp only [List.foldl_cons, List.length_cons]
    rw [ih, addStats_processed_skipped]
    omega

theorem totalStats_sum (rs : List FileResult) :
    (totalStats rs).processed + (totalStats rs).skipped = rs.length := by
  unfold totalStats
  rw [foldl_addStats_sum]
  simp

theorem foldl_addStats_skipped (rs : List FileResult) (s : Stats) :
    (rs.foldl addStats s).skipped
      = s.skipped + rs.countP (·.skipped) := by
  induction rs generalizing s with
  | nil => simp
  | cons r tl ih =>
    simp only [List.foldl_cons, List.countP_cons]
    rw [ih]
    unfold addStats
    by_cases h : r.skipped <;> (simp [h]; try omega)

theorem foldl_addStats_processed (rs : List FileResult) (s : Stats) :
    (rs.foldl addStats s).processed
      = s.processed + rs.countP (fun r => !r.skipped) := by
  induction rs generalizing s with
  | nil => simp
  | cons r tl ih =>
    simp only [List.foldl_cons, List.countP_cons]
    rw [ih]
    unfold addStats
    by_cases h : r.skipped <;> (simp [h]; try omega)

theorem classify_skipped_eq (c : Candidate) :
    (classifyCandidate c).skipped = validateErred c := by
  unfold classifyCandidate validateErred
  cases validateFile c.file <;> rfl

/-- C2: after classification of all candidates, `processed + skipped`
equals the number of discovered, non-ignored, non-directory candidates,
whatever configuration produced the candidate list and whatever order the
workers finished in. -/
theorem processed_plus_skipped_counts_candidates
    (folders : List (Option (List RawEntry))) (files : List RawEntry)
    (completion : List Candidate)
    (h : completion.Perm (buildCandidates folders files)) :
    (totalStats (completion.map classifyCandidate)).processed
      + (totalStats (completion.map classifyCandidate)).skipped
      = (buildCandidates folders files).length := by
  rw [totalStats_sum, List.length_map, h.length_eq]

/-- Concrete instantiation of `processed_plus_skipped_counts_candidates`:
one existing folder holding `a.txt` and `b.bin`, one missing folder, one
individual file reference, with workers finishing in reversed order. -/
theorem processed_plus_skipped_counts_candidates_witness :
    (totalStats ([candNul, candEmpty, candA].map classifyCandidate)).processed
      + (totalStats ([candNul, candEmpty, candA].map classifyCandidate)).skipped
      = (buildCandidates
          [some [⟨candA, true, false, true⟩, ⟨candNul, true, false, true⟩], none]
          [⟨candEmpty, true, false, true⟩]).length :=
  processed_plus_skipped_counts_candidates
    [some [⟨candA, true, false, true⟩, ⟨candNul, true, false, true⟩], none]
    [⟨candEmpty, true, false, true⟩]
    [candNul, candEmpty, candA]
    (by decide)

/-- C6: `collectContent` returns an error exactly when the processed
counter is zero once every candidate is classified, and every per-file
classification failure lands in the skipped counter (so per-file failures
alone never produce a run error). -/
theorem collectContent_error_iff_none_processed (completion : List Candidate) :
    ((∃ e, collectContent completion = .error e)
      ↔ (totalStats (completion.map classifyCandidate)).processed = 0)
    ∧ (totalStats (completion.map classifyCandidate)).skipped
        = completion.countP validateErred := by
  constructor
  · unfold collectContent
    by_cases h : (totalStats (completion.map classifyCandidate)).processed = 0
    · simp [h]
    · simp [h]
  · unfold totalStats
    rw [foldl_addStats_skipped, List.countP_map]
    simp only [Nat.zero_add]
    exact List.countP_congr (fun c _ => by
      simp only [Function.comp_apply, classify_skipped_eq])

/-- C1 (failing input): the worker pool appends `FileResult`s in completion
order and `collectContent` never reorders them (the `Sort results` comment
at main.go:372 is followed by no sort), so the completion order
`[candB, candA]` — a legal schedule of the discovered list
`[candA, candB]` — yields a report whose sections are not in discovery
order: the two runs differ. -/
theorem collectContent_completion_order_dependent :
    ([candB, candA].Perm [candA, candB])
    ∧ (collectContent [candB, candA]).toOption
        ≠ (collectContent [candA, candB]).toOption := by
  constructor
  · exact List.Perm.swap candA candB []
  · decide

theorem processed_pos_of_mem_not_skipped (rs : List FileResult)
    (r : FileResult) (hm : r ∈ rs) (hs : r.skipped = false) :
    0 < (totalStats rs).processed := by
  unfold totalStats
  rw [foldl_addStats_processed]
  have : 0 < rs.countP (fun r => !r.skipped) :=
    List.countP_pos_iff.mpr ⟨r, hm, by simp [hs]⟩
  omega

/-- C3: a zero-byte file is validated as empty without any read (the
outcomes of the 8KB read and of the full read are irrelevant), its result
is empty and not skipped, it renders as an `(empty)` section, the counter
update adds one to `processed` and one to `empty` and leaves `skipped`
alone, and its `(empty)` section occurs inside the report of every run
whose candidate list contains it. -/
theorem zero_byte_file_empty_section (c : Candidate)
    (h0 : c.file.bytes = []) (ho : c.file.openOk = true)
    (hs : c.file.statOk = true) :
    validateFile c.file = .ok []
    ∧ (classifyCandidate c).isEmpty = true
    ∧ (classifyCandidate c).skipped = false
    ∧ renderResult (classifyCandidate c)
        = subst (strBytes "\n\n%s\nFile: %s (empty)\n%s") [eqBar, c.relPath, eqBar]
    ∧ (∀ s : Stats, addStats s (classifyCandidate c)
        = ⟨s.processed + 1, s.empty + 1, s.skipped⟩)
    ∧ (∀ completion : List Candidate, c ∈ completion →
        ∃ rep, collectContent completion = .ok rep
          ∧ renderResult (classifyCandidate c) <:+: rep) := by
  have hv : validateFile c.file = .ok [] := by
    unfold validateFile
    simp [ho, hs, h0]
  have hc : classifyCandidate c
      = { relPath := c.relPath, content := [], isEmpty := true,
          isValid := true, skipped := false } := by
    unfold classifyCandidate
    rw [hv]
    simp
  refine ⟨hv, by rw [hc], by rw [hc], ?_, ?_, ?_⟩
  · rw [hc]
    unfold renderResult
    simp
  · intro s
    rw [hc]
    unfold addStats
    simp
  · intro completion hmem
    have hpos : 0 < (totalStats (completion.map classifyCandidate)).processed :=
      processed_pos_of_mem_not_skipped _ (classifyCandidate c)
        (List.mem_map_of_mem classifyCandidate hmem) (by rw [hc])
    refine ⟨(((completion.map classifyCandidate).map renderResult).flatten
      ++ summaryBytes (totalStats (completion.map classifyCandidate))), ?_, ?_⟩
    · unfold collectContent
      have hne : (totalStats (completion.map classifyCandidate)).processed ≠ 0 :=
        Nat.pos_iff_ne_zero.mp hpos
      simp [hne]
    · have hin : renderResult (classifyCandidate c)
          ∈ (completion.map classifyCandidate).map renderResult :=
        List.mem_map_of_mem renderResult (List.mem_map_of_mem classifyCandidate hmem)
      exact (List.infix_of_mem_flatten hin).trans (List.infix_append [] _ _)

/-- Concrete instantiation of `zero_byte_file_empty_section` at the
zero-byte candidate `empty.txt`. -/
theorem zero_byte_file_empty_section_witness :
    validateFile candEmpty.file = .ok []
    ∧ (classifyCandidate candEmpty).isEmpty = true
    ∧ (classifyCandidate candEmpty).skipped = false
    ∧ renderResult (classifyCandidate candEmpty)
        = subst (strBytes "\n\n%s\nFile: %s (empty)\n%s") [eqBar, candEmpty.relPath, eqBar]
    ∧ (∀ s : Stats, addStats s (classifyCandidate candEmpty)
        = ⟨s.processed + 1, s.empty + 1, s.skipped⟩)
    ∧ (∀ completion : List Candidate, candEmpty ∈ completion →
        ∃ rep, collectContent completion = .ok rep
          ∧ renderResult (classifyCandidate candEmpty) <:+: rep) :=
  zero_byte_file_empty_section candEmpty rfl rfl rfl

/-- C4: a file whose first 8192 bytes contain a NUL byte is classified as
binary (whatever its total size), its result is skipped, it contributes
nothing to the rendered report body, and the counter update adds one to
`skipped` only. -/
theorem nul_prefix_file_skipped (c : Candidate)
    (ho : c.file.openOk = true) (hs : c.file.statOk = true)
    (hr : c.file.readOk = true)
    (hn : containsNul (c.file.bytes.take 8192) = true) :
    validateFile c.file = .error "file appears to be binary (contains null bytes)"
    ∧ (classifyCandidate c).skipped = true
    ∧ renderResult (classifyCandidate c) = []
    ∧ (∀ s : Stats, addStats s (classifyCandidate c)
        = ⟨s.processed, s.empty, s.skipped + 1⟩) := by
  have hne : c.file.bytes.length ≠ 0 := by
    intro hlen
    rw [List.length_eq_zero] at hlen
    rw [hlen] at hn
    simp [containsNul] at hn
  have hv : validateFile c.file
      = .error "file appears to be binary (contains null bytes)" := by
    unfold validateFile
    simp [ho, hs, hr, hne, hn]
  have hc : classifyCandidate c
      = { relPath := c.relPath, content := [], isEmpty := false,
          isValid := false, skipped := true } := by
    unfold classifyCandidate
    rw [hv]
  refine ⟨hv, by rw [hc], ?_, ?_⟩
  · rw [hc]
    unfold renderResult
    simp
  · intro s
    rw [hc]
    unfold addStats
    simp

/-- Concrete instantiation of `nul_prefix_file_skipped` at the candidate
`b.bin` with content bytes `[0, 1]`. -/
theorem nul_prefix_file_skipped_witness :
    validateFile candNul.file = .error "file appears to be binary (contains null bytes)"
    ∧ (classifyCandidate candNul).skipped = true
    ∧ renderResult (classifyCandidate candNul) = []
    ∧ (∀ s : Stats, addStats s (classifyCandidate candNul)
        = ⟨s.processed, s.empty, s.skipped + 1⟩) :=
  nul_prefix_file_skipped candNul rfl rfl rfl (by decide)

/-- C5: a pattern on which `doublestar.Match` reports an error never causes
a path to be excluded — removing it from the ignore list does not change
the outcome of `shouldIncludeFile` — and a run whose patterns all fail to
compile includes every path; the filter itself is a total boolean function,
so a pattern error can never abort discovery. -/
theorem shouldIncludeLoop_cons (m : String → String → MatchOutcome)
    (rp q : String) (tl : List String) :
    shouldIncludeLoop m rp (q :: tl)
      = if (!(m q rp).errored && (m q rp).matched) = true then false
        else shouldIncludeLoop m rp tl := rfl

theorem shouldIncludeFile_eq (m : String → String → MatchOutcome)
    (relOk : Bool) (rp : String) (pats : List String) :
    shouldIncludeFile m relOk rp pats
      = if relOk then shouldIncludeLoop m rp pats else true := by
  cases relOk <;> rfl

theorem shouldIncludeLoop_erase (m : String → String → MatchOutcome)
    (rp pat : String) (h : (m pat rp).errored = true)
    (pats1 pats2 : List String) :
    shouldIncludeLoop m rp (pats1 ++ pat :: pats2)
      = shouldIncludeLoop m rp (pats1 ++ pats2) := by
  induction pats1 with
  | nil =>
    rw [List.nil_append, List.nil_append, shouldIncludeLoop_cons]
    simp [h]
  | cons q tl ih =>
    rw [List.cons_append, List.cons_append,
      shouldIncludeLoop_cons, shouldIncludeLoop_cons, ih]

theorem shouldIncludeLoop_all_errored (m : String → String → MatchOutcome)
    (rp : String) (pats : List String)
    (hall : ∀ q ∈ pats, (m q rp).errored = true) :
    shouldIncludeLoop m rp pats = true := by
  induction pats with
  | nil => rfl
  | cons q tl ih =>
    rw [shouldIncludeLoop_cons]
    rw [hall q (List.mem_cons_self q tl)]
    simp only [Bool.not_true, Bool.false_and]
    simpa using ih (fun r hr => hall r (List.mem_cons_of_mem _ hr))

/-- C5: a pattern on which `doublestar.Match` reports an error never causes
a path to be excluded — removing it from the ignore list does not change
the outcome of `shouldIncludeFile` — and a run whose patterns all fail to
compile includes every path; the filter itself is a total boolean function,
so a pattern error can never abort discovery. -/
theorem malformed_pattern_fails_open (m : String → String → MatchOutcome)
    (relOk : Bool) (rp : String) (pats1 pats2 : List String) (pat : String)
    (h : (m pat rp).errored = true) :
    shouldIncludeFile m relOk rp (pats1 ++ pat :: pats2)
      = shouldIncludeFile m relOk rp (pats1 ++ pats2)
    ∧ (∀ pats : List String, (∀ q ∈ pats, (m q rp).errored = true) →
        shouldIncludeFile m relOk rp pats = true) := by
  constructor
  · rw [shouldIncludeFile_eq, shouldIncludeFile_eq,
      shouldIncludeLoop_erase m rp pat h pats1 pats2]
  · intro pats hall
    rw [shouldIncludeFile_eq]
    cases relOk with
    | false => rfl
    | true => simpa using shouldIncludeLoop_all_errored m rp pats hall

/-- C8: the body section of a non-skipped, non-empty `FileResult` is
exactly the bytes `"\n\n"`, fifty `'='`, `"\nFile: "`, the relative path,
`"\n"`, fifty `'='`, `"\n\n"`, the content — nothing else.  (The body loop
of `collectContent` emits this block exactly once per `FileResult`.) -/
theorem text_section_exact (r : FileResult)
    (h1 : r.skipped = false) (h2 : r.isEmpty = false) :
    renderResult r
      = strBytes "\n\n" ++ List.replicate 50 0x3D ++ strBytes "\nFile: "
        ++ r.relPath ++ strBytes "\n" ++ List.replicate 50 0x3D
        ++ strBytes "\n\n" ++ r.content := by
  unfold renderResult
  rw [h1, h2]
  simp [subst, strBytes, eqBar]

/-- Concrete instantiation of `text_section_exact` at the classification
result of `a.txt`. -/
theorem text_section_exact_witness :
    renderResult (classifyCandidate candA)
      = strBytes "\n\n" ++ List.replicate 50 0x3D ++ strBytes "\nFile: "
        ++ (classifyCandidate candA).relPath ++ strBytes "\n"
        ++ List.replicate 50 0x3D ++ strBytes "\n\n"
        ++ (classifyCandidate candA).content :=
  text_section_exact (classifyCandidate candA) (by decide) (by decide)

theorem utf8Valid_ascii_cons (l : List Nat) :
    utf8Valid (0x61 :: l) = utf8Valid l := rfl

theorem utf8Valid_replicate_ascii (n : Nat) (l : List Nat) :
    utf8Valid (List.replicate n 0x61 ++ l) = utf8Valid l := by
  induction n with
  | zero =>
    rw [List.replicate_zero]
    rw [List.nil_append]
  | succ k ih =>
    rw [List.replicate_succ, List.cons_append]
    rw [utf8Valid_ascii_cons]
    exact ih

theorem any_zero_replicate (n : Nat) :
    (List.replicate n (0x61:Nat)).any (fun b => b == 0) = false := by
  induction n with
  | zero => rfl
  | succ k ih =>
    rw [List.replicate_succ, List.any_cons, ih]
    rfl

theorem containsNul_big :
    containsNul (List.replicate 8191 0x61 ++ [0xC3]) = false := by
  unfold containsNul
  rw [List.any_append, any_zero_replicate]
  rfl

theorem take_big :
    (List.replicate 8191 (0x61:Nat) ++ [0xC3, 0xA9]).take 8192
      = List.replicate 8191 0x61 ++ [0xC3] := by
  have h : (8192:Nat) = (List.replicate 8191 (0x61:Nat)).length + 1 := by
    rw [List.length_replicate]
  rw [h, List.take_append]
  congr 1

theorem utf8Valid_big_truncated :
    utf8Valid (List.replicate 8191 0x61 ++ [0xC3]) = false := by
  rw [utf8Valid_replicate_ascii]
  decide

theorem classify_skipped_of_error (c : Candidate) (e : String)
    (h : validateFile c.file = .error e) :
    (classifyCandidate c).skipped = true := by
  unfold classifyCandidate
  rw [h]

theorem validateFile_invalid_utf8 (f : FileData) (ho : f.openOk = true)
    (hs : f.statOk = true) (hr : f.readOk = true)
    (hlen : f.bytes.length ≠ 0)
    (hnul : containsNul (f.bytes.take 8192) = false)
    (hv : utf8Valid (f.bytes.take 8192) = false) :
    validateFile f = .error "file contains invalid UTF-8 characters" := by
  unfold validateFile
  simp [ho, hs, hr, hlen, hnul, hv]

/-- C9: the 8193-byte file `big.txt` is valid UTF-8 in full, yet because
the validation buffer holds only the first 8192 bytes — cutting the final
two-byte character in half — `validateFile` rejects it as invalid UTF-8 and
it is counted as skipped. -/
theorem utf8_prefix_truncation_rejects_valid_file :
    utf8Valid candBig.file.bytes = true
    ∧ 8192 < candBig.file.bytes.length
    ∧ validateFile candBig.file = .error "file contains invalid UTF-8 characters"
    ∧ (classifyCandidate candBig).skipped = true := by
  have hbytes : candBig.file.bytes = List.replicate 8191 0x61 ++ [0xC3, 0xA9] := rfl
  have hlen : candBig.file.bytes.length = 8193 := by
    rw [hbytes, List.length_append, List.length_replicate]
    rfl
  have htake : candBig.file.bytes.take 8192 = List.replicate 8191 0x61 ++ [0xC3] := by
    rw [hbytes]
    exact take_big
  have hval : validateFile candBig.file
      = .error "file contains invalid UTF-8 characters" := by
    refine validateFile_invalid_utf8 candBig.file rfl rfl rfl ?_ ?_ ?_
    · rw [hlen]
      omega
    · rw [htake]
      exact containsNul_big
    · rw [htake]
      exact utf8Valid_big_truncated
  refine ⟨?_, ?_, hval, ?_⟩
  · rw [hbytes, utf8Valid_replicate_ascii]
    decide
  · rw [hlen]
    omega
  · exact classify_skipped_of_error candBig _ hval

/-- Concrete instantiation of `malformed_pattern_fails_open`: a matcher
that reports `ErrBadPattern` on the pattern `[` for path `a.txt`. -/
theorem malformed_pattern_fails_open_witness :
    (shouldIncludeFile (fun _ _ => ⟨true, true⟩) true "a.txt" (["ok"] ++ "[" :: [])
      = shouldIncludeFile (fun _ _ => ⟨true, true⟩) true "a.txt" (["ok"] ++ []))
    ∧ (∀ pats : List String,
        (∀ q ∈ pats, ((fun (_ _ : String) => (⟨true, true⟩ : MatchOutcome)) q "a.txt").errored = true) →
        shouldIncludeFile (fun _ _ => ⟨true, true⟩) true "a.txt" pats = true) :=
  malformed_pattern_fails_open (fun _ _ => ⟨true, true⟩) true "a.txt" ["ok"] [] "[" rfl

theorem renderFolders_missing (maxD : Nat) (inc : String → Bool) :
    ∀ (folders : List (String × Option FsTree)) (isLast : Bool),
      (∃ p ∈ folders, p.2 = none) →
      ∃ e, renderFolders maxD inc folders isLast = .error e := by
  intro folders
  induction folders with
  | nil =>
    intro isLast h
    simp at h
  | cons p rest ih =>
    intro isLast h
    obtain ⟨ref, t⟩ := p
    cases t with
    | none =>
      cases rest with
      | nil => exact ⟨_, rfl⟩
      | cons q qs => exact ⟨_, rfl⟩
    | some tr =>
      cases rest with
      | nil => simp at h
      | cons q qs =>
        have h' : ∃ p ∈ q :: qs, p.2 = none := by
          rcases h with ⟨x, hx, hnone⟩
          rcases List.mem_cons.mp hx with rfl | hmem
          · simp at hnone
          · exact ⟨x, hmem, hnone⟩
        obtain ⟨e, he⟩ := ih isLast h'
        refine ⟨e, ?_⟩
        simp only [renderFolders]
        rw [he]

/-- C10: unlike content collection (which records a missing folder as a
warning and continues), tree rendering aborts as soon as any configured
folder is missing — the root stat failure propagates out of `printTree`
and `generateFolderStructure` returns an error for the whole run. -/
theorem tree_missing_folder_aborts (maxD : Nat) (inc : String → Bool)
    (folders : List (String × Option FsTree))
    (h : ∃ p ∈ folders, p.2 = none) :
    ∃ e, generateFolderStructure maxD inc folders = .error e := by
  obtain ⟨e, he⟩ := renderFolders_missing maxD inc folders true h
  refine ⟨e, ?_⟩
  unfold generateFolderStructure
  rw [he]

/-- Concrete instantiation of `tree_missing_folder_aborts`: a single
configured folder `gone` that does not exist. -/
theorem tree_missing_folder_aborts_witness :
    ∃ e, generateFolderStructure 0 (fun _ => true)
      [("gone", (none : Option FsTree))] = .error e :=
  tree_missing_folder_aborts 0 (fun _ => true) [("gone", none)]
    ⟨("gone", none), List.mem_singleton.mpr rfl, rfl⟩

theorem printTree_prune (maxD : Nat) (inc : String → Bool) (path : String)
    (t : FsTree) (pref : String) (isLast : Bool) (depth : Nat)
    (h1 : 0 < maxD) (h2 : maxD < depth) :
    printTree maxD inc path t pref isLast depth = ⟨[], 0, 0⟩ := by
  rw [printTree]
  simp [h1, h2]

theorem printTree_file_eq (maxD : Nat) (inc : String → Bool) (path : String)
    (n : String) (pref : String) (isLast : Bool) (depth : Nat)
    (h : ¬(0 < maxD ∧ maxD < depth)) :
    printTree maxD inc path (.file n) pref isLast depth
      = ⟨[(if isLast then pref ++ "└── " else pref ++ "├── ") ++ n], 0, 1⟩ := by
  rw [printTree]
  have hc : (maxD > 0 && depth > maxD) = false := by
    cases Nat.decLt 0 maxD with
    | isTrue hp => simp [hp]; omega
    | isFalse hp => simp [Nat.le_zero.mp (Nat.not_lt.mp hp)]
  rw [hc]
  simp

theorem printChildren_nil (maxD : Nat) (inc : String → Bool) (path pref : String)
    (depth : Nat) : printChildren maxD inc path [] pref depth = ⟨[], 0, 0⟩ := by
  rw [printChildren]

theorem printChildren_single (maxD : Nat) (inc : String → Bool) (path : String)
    (c : FsTree) (pref : String) (depth : Nat) :
    printChildren maxD inc path [c] pref depth
      = printTree maxD inc (joinPath path c.name) c pref true depth := by
  rw [printChildren]

theorem printTree_dir_eq (maxD : Nat) (inc : String → Bool) (path : String)
    (n : String) (cs : List FsTree) (pref : String) (isLast : Bool) (depth : Nat)
    (h : ¬(0 < maxD ∧ maxD < depth)) :
    printTree maxD inc path (.dir n cs) pref isLast depth
      = ⟨((if isLast then pref ++ "└── " else pref ++ "├── ") ++ n ++ "/")
            :: (printChildren maxD inc path
                (cs.filter (fun c => inc (joinPath path c.name)))
                (if isLast then pref ++ "    " else pref ++ "│   ") (depth + 1)).lines,
          (printChildren maxD inc path
                (cs.filter (fun c => inc (joinPath path c.name)))
                (if isLast then pref ++ "    " else pref ++ "│   ") (depth + 1)).dirs + 1,
          (printChildren maxD inc path
                (cs.filter (fun c => inc (joinPath path c.name)))
                (if isLast then pref ++ "    " else pref ++ "│   ") (depth + 1)).files⟩ := by
  rw [printTree]
  have hc : (maxD > 0 && depth > maxD) = false := by
    cases Nat.decLt 0 maxD with
    | isTrue hp => simp [hp]; omega
    | isFalse hp => simp [Nat.le_zero.mp (Nat.not_lt.mp hp)]
  rw [hc]
  simp

theorem printChildren_cons2 (maxD : Nat) (inc : String → Bool) (path : String)
    (c c2 : FsTree) (cs : List FsTree) (pref : String) (depth : Nat) :
    printChildren maxD inc path (c :: c2 :: cs) pref depth
      = ⟨(printTree maxD inc (joinPath path c.name) c pref false depth).lines
            ++ (printChildren maxD inc path (c2 :: cs) pref depth).lines,
          (printTree maxD inc (joinPath path c.name) c pref false depth).dirs
            + (printChildren maxD inc path (c2 :: cs) pref depth).dirs,
          (printTree maxD inc (joinPath path c.name) c pref false depth).files
            + (printChildren maxD inc path (c2 :: cs) pref depth).files⟩ := by
  rw [printChildren]
  simp

theorem truncAt_name (k : Nat) (t : FsTree) : (truncAt k t).name = t.name := by
  cases t <;> cases k <;> rfl

theorem printChildren_prune (maxD : Nat) (inc : String → Bool) (path : String)
    (cs : List FsTree) (pref : String) (depth : Nat)
    (h1 : 0 < maxD) (h2 : maxD < depth) :
    printChildren maxD inc path cs pref depth = ⟨[], 0, 0⟩ := by
  induction cs with
  | nil => exact printChildren_nil maxD inc path pref depth
  | cons c tl ih =>
    cases tl with
    | nil =>
      rw [printChildren_single, printTree_prune maxD inc _ c pref true depth h1 h2]
    | cons c2 cs2 =>
      rw [printChildren_cons2,
        printTree_prune maxD inc _ c pref false depth h1 h2, ih]
      rfl

theorem filter_map_name (j : Nat) (inc : String → Bool) (path : String)
    (cs : List FsTree) :
    (cs.map (truncAt j)).filter (fun c => inc (joinPath path c.name))
      = (cs.filter (fun c => inc (joinPath path c.name))).map (truncAt j) := by
  induction cs with
  | nil => rfl
  | cons c tl ih =>
    rw [List.map_cons, List.filter_cons, List.filter_cons, truncAt_name]
    by_cases hc : inc (joinPath path c.name) = true
    · simp only [hc, if_pos]
      rw [List.map_cons, ih]
    · simp only [hc, if_neg]
      rw [ih]
      simp [hc]

mutual

theorem printTree_trunc (maxD : Nat) (inc : String → Bool) (path : String)
    (t : FsTree) (pref : String) (isLast : Bool) (depth : Nat)
    (hD : 0 < maxD) (hd : depth ≤ maxD) :
    printTree maxD inc path t pref isLast depth
      = printTree 0 inc path (truncAt (maxD - depth) t) pref isLast depth := by
  have hno : ¬(0 < maxD ∧ maxD < depth) := by omega
  have hno0 : ¬((0:Nat) < 0 ∧ 0 < depth) := by omega
  cases t with
  | file n =>
    rw [printTree_file_eq maxD inc path n pref isLast depth hno]
    rw [show truncAt (maxD - depth) (FsTree.file n) = FsTree.file n from by
      cases maxD - depth <;> rfl]
    rw [printTree_file_eq 0 inc path n pref isLast depth hno0]
  | dir n cs =>
    rw [printTree_dir_eq maxD inc path n cs pref isLast depth hno]
    by_cases heq : depth = maxD
    · have h0 : maxD - depth = 0 := by omega
      rw [h0]
      rw [show truncAt 0 (FsTree.dir n cs) = FsTree.dir n [] from rfl]
      rw [printTree_dir_eq 0 inc path n [] pref isLast depth hno0]
      rw [List.filter_nil, printChildren_nil]
      rw [printChildren_prune maxD inc path _ _ (depth + 1) hD (by omega)]
    · have h0 : maxD - depth = (maxD - depth - 1) + 1 := by omega
      rw [h0]
      rw [show truncAt ((maxD - depth - 1) + 1) (FsTree.dir n cs)
            = FsTree.dir n (cs.map (truncAt (maxD - depth - 1))) from rfl]
      rw [printTree_dir_eq 0 inc path n (cs.map (truncAt (maxD - depth - 1)))
        pref isLast depth hno0]
      rw [filter_map_name (maxD - depth - 1) inc path cs]
      rw [printChildren_trunc maxD inc path
        (cs.filter (fun c => inc (joinPath path c.name))) _ depth hD (by omega)]
termination_by sizeOf t
decreasing_by
  simp_wf
  have h := sizeOf_filter_le (fun c => inc (joinPath path c.name)) children
  omega

theorem printChildren_trunc (maxD : Nat) (inc : String → Bool) (path : String)
    (cs : List FsTree) (pref : String) (depth : Nat)
    (hD : 0 < maxD) (hd : depth + 1 ≤ maxD) :
    printChildren maxD inc path cs pref (depth + 1)
      = printChildren 0 inc path (cs.map (truncAt (maxD - depth - 1))) pref (depth + 1) := by
  cases cs with
  | nil =>
    rw [List.map_nil, printChildren_nil, printChildren_nil]
  | cons c tl =>
    cases tl with
    | nil =>
      rw [List.map_cons, List.map_nil, printChildren_single, printChildren_single]
      rw [truncAt_name]
      rw [printTree_trunc maxD inc (joinPath path c.name) c pref true (depth + 1) hD hd]
      rw [show maxD - (depth + 1) = maxD - depth - 1 from by omega]
    | cons c2 cs2 =>
      rw [List.map_cons, List.map_cons, printChildren_cons2, printChildren_cons2]
      rw [truncAt_name]
      rw [printTree_trunc maxD inc (joinPath path c.name) c pref false (depth + 1) hD hd]
      rw [printChildren_trunc maxD inc path (c2 :: cs2) pref depth hD hd]
      rw [show maxD - (depth + 1) = maxD - depth - 1 from by omega]
      rw [List.map_cons]
termination_by sizeOf cs
decreasing_by
  all_goals simp_wf
  all_goals omega

end

/-- C7: with a positive depth limit `D`, `printTree` prunes (emits nothing
for) every node whose depth exceeds `D`, and on nodes of depth at most `D`
it behaves exactly like the unbounded walk (`maxDepth = 0`) of the tree cut
off `D - depth` levels below the current node — so every node at depth at
most `D` is rendered, counting the configured folder root (where
`generateFolderStructure` starts the walk) as depth 0.  In particular with
`tree_depth: 1` over `src/a/b/c.txt`, `src/` and `a/` are rendered and `b/`
and `c.txt` are pruned. -/
theorem tree_depth_limit :
    (∀ (maxD : Nat) (inc : String → Bool) (path : String) (t : FsTree)
        (pref : String) (isLast : Bool) (depth : Nat),
      0 < maxD → maxD < depth →
      printTree maxD inc path t pref isLast depth = ⟨[], 0, 0⟩)
    ∧ (∀ (maxD : Nat) (inc : String → Bool) (path : String) (t : FsTree)
        (pref : String) (isLast : Bool) (depth : Nat),
      0 < maxD → depth ≤ maxD →
      printTree maxD inc path t pref isLast depth
        = printTree 0 inc path (truncAt (maxD - depth) t) pref isLast depth)
    ∧ printTree 1 (fun _ => true) "src" exTree "" true 0
        = ⟨["└── src/", "    └── a/"], 2, 0⟩ := by
  refine ⟨?_, ?_, ?_⟩
  · intro maxD inc path t pref isLast depth h1 h2
    exact printTree_prune maxD inc path t pref isLast depth h1 h2
  · intro maxD inc path t pref isLast depth h1 h2
    exact printTree_trunc maxD inc path t pref isLast depth h1 h2
  · simp [exTree, printTree, printChildren, joinPath, FsTree.name]

/-- Concrete instantiation of `tree_depth_limit`: a file at depth 2 is
pruned under limit 1, and the walk of the example tree under limit 2
starting at depth 1 equals the unbounded walk of the tree truncated one
level down. -/
theorem tree_depth_limit_witness :
    printTree 1 (fun _ => true) "p" (FsTree.file "x") "" true 2 = ⟨[], 0, 0⟩
    ∧ printTree 2 (fun _ => true) "src" exTree "" true 1
        = printTree 0 (fun _ => true) "src" (truncAt 1 exTree) "" true 1 :=
  ⟨tree_depth_limit.1 1 (fun _ => true) "p" (FsTree.file "x") "" true 2
      (by decide) (by decide),
   tree_depth_limit.2.1 2 (fun _ => true) "src" exTree "" true 1
      (by decide) (by decide)⟩

end CodeSnap
